import Mathlib

/-!
Verification of the celestia-node-ui client against its design specification.

The development shallowly embeds the core JavaScript modules of the
repository — the namespace codec (`src/utils/common.js` and the bundled
variant), the encrypted record store (`databaseManager` component and the
bundled variant), and the WebSocket RPC transport — as executable Lean
functions, and proves or refutes the specified properties about them.

Modelling conventions:
* JavaScript byte buffers (`Uint8Array`, `Buffer`) are `List Nat` with every
  element `< 256` stated as a hypothesis where it matters.
* `btoa` / `atob` (platform base64 codec) are modelled concretely below;
  `atob` is modelled on strings whose `=` characters may be stripped, which
  coincides with the browser behaviour on canonical inputs.
* `localStorage` is a partial map `String → Option String`.
* Platform cryptography (WebCrypto AES-GCM, PBKDF2/SHA-256 key derivation)
  and `JSON.stringify`/`JSON.parse` are external to the repository and are
  modelled symbolically; this is documented at the definitions concerned.
-/

namespace CelestiaNodeUI

/-! ### Base64 codec (model of the platform `btoa` / `atob`) -/

/-- The standard base64 alphabet, as used by `btoa`/`atob`. -/
def b64Alphabet : List Char :=
  "ABCDEFGHIJKLMNOPQRSTUVWXYZabcdefghijklmnopqrstuvwxyz0123456789+/".toList

/-- Character for a 6-bit group (values `≥ 64` never arise on in-range bytes). -/
def b64Char (n : Nat) : Char := b64Alphabet.getD n '?'

/-- Index of a character in a character list. -/
def idxOfChar (c : Char) : List Char → Option Nat
  | [] => none
  | d :: rest => if c = d then some 0 else (idxOfChar c rest).map (· + 1)

/-- Value of a base64 digit character. -/
def b64Val (c : Char) : Option Nat := idxOfChar c b64Alphabet

/-- Base64 encoding of a byte list, including `=` padding: model of `btoa`
applied to a binary string. -/
def btoaChars : List Nat → List Char
  | [] => []
  | [b1] => [b64Char (b1 / 4), b64Char (b1 % 4 * 16), '=', '=']
  | [b1, b2] =>
      [b64Char (b1 / 4), b64Char (b1 % 4 * 16 + b2 / 16), b64Char (b2 % 16 * 4), '=']
  | b1 :: b2 :: b3 :: rest =>
      b64Char (b1 / 4) :: b64Char (b1 % 4 * 16 + b2 / 16) ::
        b64Char (b2 % 16 * 4 + b3 / 64) :: b64Char (b3 % 64) :: btoaChars rest

/-- Model of `btoa` on a byte buffer (`String.fromCharCode` composition). -/
def btoa (bs : List Nat) : String := String.mk (btoaChars bs)

/-- Base64 decoding of a padding-free character list; `none` models the
`InvalidCharacterError` thrown by `atob`. -/
def atobChars : List Char → Option (List Nat)
  | [] => some []
  | [c1, c2] => do
      let v1 ← b64Val c1
      let v2 ← b64Val c2
      pure [v1 * 4 + v2 / 16]
  | [c1, c2, c3] => do
      let v1 ← b64Val c1
      let v2 ← b64Val c2
      let v3 ← b64Val c3
      pure [v1 * 4 + v2 / 16, v2 % 16 * 16 + v3 / 4]
  | c1 :: c2 :: c3 :: c4 :: rest => do
      let v1 ← b64Val c1
      let v2 ← b64Val c2
      let v3 ← b64Val c3
      let v4 ← b64Val c4
      let tail ← atobChars rest
      pure ((v1 * 4 + v2 / 16) :: (v2 % 16 * 16 + v3 / 4) :: (v3 % 4 * 64 + v4) :: tail)
  | [_] => none

/-- Model of `atob`: `=` characters are removed before decoding (the browser
permits unpadded input; on canonical padded input this is equivalent). -/
def atob (s : String) : Option (List Nat) :=
  atobChars (s.toList.filter (fun c => c != '='))

/-! ### Hex codec (model of `toString(16)` / `parseInt(·, 16)` / `Buffer` hex) -/

/-- Lowercase hex digits, as produced by `Number.prototype.toString(16)` and
`Buffer.prototype.toString('hex')`. -/
def hexDigitsLower : List Char := "0123456789abcdef".toList

/-- Uppercase hex digits (output of `.toUpperCase()` on the above). -/
def hexDigitsUpper : List Char := "0123456789ABCDEF".toList

/-- Hex digit character for a 4-bit value, in the requested case. -/
def hexChar (upper : Bool) (n : Nat) : Char :=
  (if upper then hexDigitsUpper else hexDigitsLower).getD n '?'

/-- Two-character hex rendering of one byte (the source pads `toString(16)`
to two characters). -/
def byteToHexChars (upper : Bool) (b : Nat) : List Char :=
  [hexChar upper (b / 16), hexChar upper (b % 16)]

/-- Hex rendering of a byte buffer. For `upper := true` this models
`base64ToHex`-style construction followed by `.toUpperCase()`; for
`upper := false` it models `Buffer.prototype.toString('hex')`. -/
def bytesToHexChars (upper : Bool) : List Nat → List Char
  | [] => []
  | b :: rest => byteToHexChars upper b ++ bytesToHexChars upper rest

/-- String form of `bytesToHexChars`. -/
def bytesToHex (upper : Bool) (bs : List Nat) : String :=
  String.mk (bytesToHexChars upper bs)

/-- Value of a hex digit character, either case (as `parseInt(·, 16)` and
`Buffer.from(·, 'hex')` accept both). -/
def hexVal (c : Char) : Option Nat :=
  match idxOfChar c hexDigitsLower with
  | some n => some n
  | none => idxOfChar c hexDigitsUpper

/-- Total hex digit value; the `parseInt` NaN path (which cannot occur on the
hex strings produced by this program) collapses to `0`. -/
def hexValD (c : Char) : Nat := (hexVal c).getD 0

/-- Parse a hex character list two digits at a time, as the source's
`for (i += 2) parseInt(hex.substr(i, 2), 16)` loop does; a trailing lone
digit is parsed as a one-digit number, like `substr` yields. -/
def hexPairsToBytes : List Char → List Nat
  | [] => []
  | [c] => [hexValD c]
  | c1 :: c2 :: rest => (hexValD c1 * 16 + hexValD c2) :: hexPairsToBytes rest

/-! ### Substring search (model of `String.prototype.includes`) -/

/-- Boolean prefix test on character lists. -/
def isPrefixOfB : List Char → List Char → Bool
  | [], _ => true
  | _ :: _, [] => false
  | a :: as, b :: bs => a == b && isPrefixOfB as bs

/-- Model of `haystack.includes(needle)`: some suffix of the haystack starts
with the needle. -/
def listIncludes (hay pat : List Char) : Bool :=
  match hay with
  | [] => isPrefixOfB pat []
  | _ :: t => isPrefixOfB pat hay || listIncludes t pat

/-! ### Namespace codec (from `src/utils/common.js` and the bundled variant)

Both variants take a base64 string and immediately decode it; the models
below work on the decoded byte buffer (`List Nat`), with the base64 layer
modelled by `btoa`/`atob` above. -/

/-- Reserved namespace hex patterns of the `common.js` variant
(`RESERVED_NAMESPACES` in `src/utils/common.js`). -/
def reservedNamespacesV1 : List String :=
  ["0000000000000000000000000000000000000000000000000000000001",
   "0000000000000000000000000000000000000000000000000000000002",
   "0000000000000000000000000000000000000000000000000000000004",
   "00000000000000000000000000000000000000000000000000000000FF",
   "FFFFFFFFFFFFFFFFFFFFFFFFFFFFFFFFFFFFFFFFFFFFFFFFFFFFFFFFFFFE",
   "FFFFFFFFFFFFFFFFFFFFFFFFFFFFFFFFFFFFFFFFFFFFFFFFFFFFFFFD"]

/-- Reserved namespace hex patterns of the bundled variant
(`RESERVED_NAMESPACES` in the bundle). -/
def reservedNamespacesV2 : List String :=
  ["0000000000000000000000000000000000000000000000000000000001",
   "0000000000000000000000000000000000000000000000000000000002",
   "0000000000000000000000000000000000000000000000000000000004",
   "00000000000000000000000000000000000000000000000000000000FF",
   "FFFFFFFFFFFFFFFFFFFFFFFFFFFFFFFFFFFFFFFFFFFFFFFFFFFFFFFFFFFE",
   "FFFFFFFFFFFFFFFFFFFFFFFFFFFFFFFFFFFFFFFFFFFFFFFFFFFFFFFFFFFFFFFF"]

/-- Violated namespace rule, mirroring the error strings returned by the two
`validateNamespace` variants. -/
inductive NsErr
  | badLength (got : Nat)
  | badVersion (v : Nat)
  | nonZeroPadding
  | reserved
deriving DecidableEq, Repr

/-- Model of `isReservedNamespace` in `common.js`: the namespace's uppercase
hex form is compared for equality against each reserved pattern. -/
def isReservedNamespaceV1 (bs : List Nat) : Bool :=
  reservedNamespacesV1.any (fun r => bytesToHex true bs == r)

/-- Model of `validateNamespace` in `common.js`, on the decoded bytes (the
source first checks `isValidBase64` and decodes, which the byte-level model
subsumes): length must be 58 hex characters, the version byte — parsed from
the first two hex digits — must be 0 or 255, and the namespace must not be
reserved.  `none` means valid. -/
def validateNamespaceV1 (bs : List Nat) : Option NsErr :=
  let hex := bytesToHexChars true bs
  if hex.length ≠ 58 then some (.badLength (hex.length / 2))
  else
    let version := hexValD (hex.getD 0 '0') * 16 + hexValD (hex.getD 1 '0')
    if version ≠ 0 ∧ version ≠ 255 then some (.badVersion version)
    else if isReservedNamespaceV1 bs then some .reserved
    else none

/-- Model of `isReservedNamespace` in the bundled variant: the namespace's
lowercase `Buffer` hex form is tested with case-sensitive
`String.prototype.includes` against each reserved pattern. -/
def isReservedNamespaceV2 (bs : List Nat) : Bool :=
  reservedNamespacesV2.any (fun r => listIncludes (bytesToHexChars false bs) r.toList)

/-- Model of `validateNamespace` in the bundled variant, on the decoded
bytes: 29-byte length, version byte 0 or 255, 18 zero ID bytes for
version 0, and the reserved check.  `none` means valid. -/
def validateNamespaceV2 (bs : List Nat) : Option NsErr :=
  if bs.length ≠ 29 then some (.badLength bs.length)
  else if bs.headD 0 = 0 ∧ ((bs.drop 1).take 18).any (fun b => b ≠ 0) then
    some .nonZeroPadding
  else if bs.headD 0 ≠ 0 ∧ bs.headD 0 ≠ 255 then some (.badVersion (bs.headD 0))
  else if isReservedNamespaceV2 bs then some .reserved
  else none

/-- Model of `TypedArray.prototype.set`: overwrite `base` at offset `pos`
with `vals` (all uses in the source fit inside the target buffer). -/
def setAt (base : List Nat) (pos : Nat) (vals : List Nat) : List Nat :=
  base.take pos ++ vals ++ base.drop (pos + vals.length)

/-- Model of `createValidNamespace` in the bundled variant, for string
input, on the UTF-8 bytes of the input: a 10-byte buffer receives the first
10 input bytes right-aligned (`hash.set(inputBytes.slice(0, 10), startPos)`
with `startPos = max(0, 10 - len)`), a 28-byte ID receives it at offset 18,
and the namespace is the version byte 0 followed by the ID. -/
def createValidNamespaceV2 (inputBytes : List Nat) : List Nat :=
  let startPos := 10 - inputBytes.length
  let hash := setAt (List.replicate 10 0) startPos (inputBytes.take 10)
  let id := setAt (List.replicate 28 0) 18 hash
  let ns0 := setAt (List.replicate 29 0) 0 [0]
  setAt ns0 1 id

/-- Base64 form of `createValidNamespaceV2`, as the source returns
(`Buffer.from(namespace).toString('base64')`). -/
def createValidNamespaceV2B64 (inputBytes : List Nat) : String :=
  btoa (createValidNamespaceV2 inputBytes)

/-- Model of `createValidNamespace` in `common.js`: a 29-byte buffer with
version byte 0 whose bytes 1..28 receive up to 28 input bytes
(`namespaceBytes[i + 1] = inputBytes[i]` for `i < min(len, 28)`). -/
def createValidNamespaceV1 (inputBytes : List Nat) : List Nat :=
  setAt (0 :: List.replicate 28 0) 1 (inputBytes.take 28)

/-- Decoded byte form of the transaction reserved namespace. -/
def txnBytes : List Nat := List.replicate 28 0 ++ [1]

/-- Decoded byte form of the intermediate-state-root reserved namespace. -/
def isrBytes : List Nat := List.replicate 28 0 ++ [2]

/-- Decoded byte form of the pay-for-blob reserved namespace. -/
def pfbBytes : List Nat := List.replicate 28 0 ++ [4]

/-- Decoded byte form of the primary reserved padding namespace. -/
def primaryPaddingBytes : List Nat := List.replicate 28 0 ++ [255]

/-! ### Display-form conversion (`base64ToHex` / `hexToBase64`) -/

/-- Strip a leading literal `0x`, as `hex.replace(/^0x/, '')` does. -/
def strip0x (cs : List Char) : List Char :=
  match cs with
  | '0' :: 'x' :: rest => rest
  | l => l

/-- Model of `base64ToHex` in `common.js`: remove `=` characters, decode the
base64 (an `atob` failure is caught and yields the empty string), render
each byte as two hex digits and uppercase the result. -/
def base64ToHexV1 (s : String) : String :=
  match atob s with
  | some bs => bytesToHex true bs
  | none => ""

/-- Model of `hexToBase64` in `common.js`: strip an optional `0x` prefix,
parse hex digits pairwise into bytes, and base64-encode them. -/
def hexToBase64V1 (hx : String) : String :=
  btoa (hexPairsToBytes (strip0x hx.toList))

/-- Model of `base64ToHex` in the bundled variant: decode with
`Buffer.from(·, 'base64')`; if the result is exactly 29 bytes, return only
the hex of the last 10 bytes (`bytes.slice(19)`), otherwise the hex of the
whole buffer (lowercase `Buffer` hex). -/
def base64ToHexV2 (s : String) : String :=
  match atob s with
  | some bs => if bs.length = 29 then bytesToHex false (bs.drop 19) else bytesToHex false bs
  | none => ""

/-- Model of `hexToBase64` in the bundled variant:
`Buffer.from(hex, 'hex').toString('base64')`. -/
def hexToBase64V2 (hx : String) : String :=
  btoa (hexPairsToBytes hx.toList)

/-! ### Schema validation (`validateDataAgainstSchema`, databaseManager)

Record values are modelled by which JavaScript runtime classification they
fall into, since `validateDataAgainstSchema` inspects values only through
`typeof` and `Array.isArray`. -/

/-- JavaScript runtime value classification. `undef` models a property that
is absent (reads as `undefined`). -/
inductive JsVal
  | undef
  | jsNull
  | jsStr
  | jsNum
  | jsBool
  | jsObj
  | jsArr
deriving DecidableEq, Repr

/-- Model of the `typeof` operator (note `typeof null == "object"`). -/
def jsTypeOf : JsVal → String
  | .undef => "undefined"
  | .jsNull => "object"
  | .jsStr => "string"
  | .jsNum => "number"
  | .jsBool => "boolean"
  | .jsObj => "object"
  | .jsArr => "object"

/-- Model of `Array.isArray`. -/
def jsIsArray : JsVal → Bool
  | .jsArr => true
  | _ => false

/-- One declared schema field: `{type, required}`. `ftype := none` models a
falsy `type` property (absent or empty), which the source skips. -/
structure FieldSchema where
  ftype : Option String
  required : Bool
deriving DecidableEq, Repr

/-- The declared fields of a schema, in object-iteration order
(`for (const field in schema.fields)`). -/
abbrev SchemaFields := List (String × FieldSchema)

/-- Violation reported by `validateDataAgainstSchema`, mirroring its two
error shapes (required-field and type errors). -/
inductive SchemaErr
  | requiredMissing (field : String)
  | typeMismatch (field : String) (expected : String)
deriving DecidableEq, Repr

/-- The per-field body of the `validateDataAgainstSchema` loop: required
check, skip of absent optional fields, then the `typeof`-based else-if
chain with `object` excluding arrays and `array` requiring `Array.isArray`. -/
def checkField (record : String → JsVal) (field : String) (fs : FieldSchema) :
    Option SchemaErr :=
  let v := record field
  if fs.required ∧ (v = .undef ∨ v = .jsNull) then some (.requiredMissing field)
  else if v = .undef then none
  else
    match fs.ftype with
    | none => none
    | some t =>
      if t = "string" ∧ jsTypeOf v ≠ "string" then some (.typeMismatch field "string")
      else if t = "number" ∧ jsTypeOf v ≠ "number" then some (.typeMismatch field "number")
      else if t = "boolean" ∧ jsTypeOf v ≠ "boolean" then
        some (.typeMismatch field "boolean")
      else if t = "object" ∧ (jsTypeOf v ≠ "object" ∨ jsIsArray v) then
        some (.typeMismatch field "object")
      else if t = "array" ∧ ¬ jsIsArray v then some (.typeMismatch field "array")
      else none

/-- Model of `validateDataAgainstSchema`: iterate the declared fields and
return the first violation (`none` means `isValid: true`). -/
def validateDataAgainstSchema (record : String → JsVal) : SchemaFields → Option SchemaErr
  | [] => none
  | (f, fs) :: rest =>
    match checkField record f fs with
    | some e => some e
    | none => validateDataAgainstSchema record rest

/-- Specification-side type agreement used by the claims: the runtime type
matches the declared type, with `object` excluding arrays and `array`
requiring array-ness. -/
def typeMatches (t : String) (v : JsVal) : Bool :=
  if t = "string" then jsTypeOf v == "string"
  else if t = "number" then jsTypeOf v == "number"
  else if t = "boolean" then jsTypeOf v == "boolean"
  else if t = "object" then jsTypeOf v == "object" && !jsIsArray v
  else if t = "array" then jsIsArray v
  else false

/-- Specification-side per-field violation predicate: the field is required
but absent or null, or it is present with a declared type its runtime type
does not match. -/
def fieldViolation (record : String → JsVal) (field : String) (fs : FieldSchema) : Bool :=
  (fs.required && (record field == .undef || record field == .jsNull))
    || (record field != .undef &&
        match fs.ftype with
        | none => false
        | some t => !typeMatches t (record field))

/-! ### Encryption engine (`encryptData` / `decryptData`, databaseManager)

The WebCrypto primitives are external to the repository and are modelled
symbolically; the repository-owned framing — key derivation call, 12-byte
IV prefix, base64 transport encoding, and the slice at byte 12 on decrypt —
is modelled concretely. -/

/-- Modelled from the spec: `deriveKey(token) -> Key` — the PBKDF2-SHA256
derivation performed via `window.crypto.subtle` (fixed salt
`celestia-db-salt`, 100000 iterations) is a deterministic injective map of
the token, modelled as a wrapper carrying the token identity. -/
structure DerivedKey where
  token : String
deriving DecidableEq

/-- Key derivation from the stored secret token. -/
def deriveKeyFromToken (token : String) : DerivedKey := ⟨token⟩

/-- Byte sequence of a string, one byte per code point (the tokens this
program derives keys from are ASCII hex/base64 strings). -/
def strBytes (s : String) : List Nat := s.toList.map Char.toNat

/-- Modelled from the spec: the AES-GCM seal operation of
`window.crypto.subtle.encrypt` — authenticated encryption whose ciphertext
binds the key identity and is decryptable exactly under the same key.  The
symbolic ciphertext is a unary key-length header, a zero separator, the key
identity bytes, and the plaintext bytes. -/
def aesGcmSealBytes (key : DerivedKey) (msg : List Nat) : List Nat :=
  List.replicate (strBytes key.token).length 1 ++ 0 :: (strBytes key.token ++ msg)

/-- Modelled from the spec: the AES-GCM open operation of
`window.crypto.subtle.decrypt` — succeeds with the plaintext exactly when
the key matches the sealing key, and fails (`none`, the thrown
`OperationError`) otherwise. -/
def aesGcmOpenBytes (key : DerivedKey) (ct : List Nat) : Option (List Nat) :=
  let tb := strBytes key.token
  let n := (ct.takeWhile (fun b => b == 1)).length
  match ct.drop n with
  | 0 :: rest => if rest.take n = tb then some (rest.drop n) else none
  | _ => none

/-- Model of `encryptData(data, token)`: derive the key from the token,
prepend the fresh 12-byte IV (passed here explicitly, standing for
`crypto.getRandomValues(new Uint8Array(12))`) to the sealed payload, and
base64-encode the result.  The plaintext is taken in its serialized byte
form (the source applies `JSON.stringify` and UTF-8 encoding first, both
platform codecs). -/
def encryptData (msgBytes : List Nat) (token : String) (iv : List Nat) : String :=
  btoa (iv ++ aesGcmSealBytes (deriveKeyFromToken token) msgBytes)

/-- Model of `decryptData(encryptedBase64, token)`: base64-decode, split the
fixed 12-byte IV prefix off the buffer (`slice(0, 12)` / `slice(12)`),
derive the key from the token and open; any failure is the thrown
decryption error (`none`). -/
def decryptData (blob : String) (token : String) : Option (List Nat) :=
  match atob blob with
  | none => none
  | some bytes => aesGcmOpenBytes (deriveKeyFromToken token) (bytes.drop 12)

/-! ### Local storage and the record store (bundled variant) -/

/-- Model of `localStorage`: a partial map from keys to strings. -/
def Store := String → Option String

/-- Model of `localStorage.getItem` (absent keys read as JS `null`). -/
def getItem (k : String) (st : Store) : Option String := st k

/-- Model of `localStorage.setItem`. -/
def setItem (k v : String) (st : Store) : Store :=
  fun k2 => if k2 = k then some v else st k2

/-- Model of `localStorage.removeItem`. -/
def removeItem (k : String) (st : Store) : Store :=
  fun k2 => if k2 = k then none else st k2

/-- The empty local storage. -/
def emptyStore : Store := fun _ => none

/-- JavaScript truthiness of a `getItem` result: both `null` (absent) and
the empty string are falsy. -/
def jsFalsyStr (o : Option String) : Bool := o.getD "" == ""

/-- Local storage keys of the databaseManager component (part one). -/
def DB_NAMESPACE_KEY_V1 : String := "celestia_db_namespace"

/-- Token key of the databaseManager component. -/
def DB_TOKEN_KEY_V1 : String := "celestia_db_token"

/-- Schema cache key of the databaseManager component. -/
def DB_SCHEMA_KEY_V1 : String := "celestia_db_schema"

/-- Namespace key of the bundled variant. -/
def DB_NAMESPACE_KEY_V2 : String := "celestia_db_namespace"

/-- Schema-height key of the bundled variant. -/
def DB_SCHEMA_HEIGHT_KEY_V2 : String := "celestia_db_schema_height"

/-- Records-index key of the bundled variant. -/
def DB_RECORDS_KEY_V2 : String := "celestia_db_records"

/-- Auth-token key of the bundled variant. -/
def DB_AUTH_TOKEN_KEY_V2 : String := "celestia_db_auth_token"

/-- Model of `getOrCreateAuthToken` (identical logic in both variants, at
the respective key): read the token; if it is falsy (absent or empty),
generate a fresh one — passed here explicitly, standing for the
`generateAuthToken()` randomness — persist it, and return it. -/
def getOrCreateAuthTokenAt (key fresh : String) (st : Store) : String × Store :=
  let token := (getItem key st).getD ""
  if token == "" then (fresh, setItem key fresh st) else (token, st)

/-- `getOrCreateAuthToken` of the databaseManager component. -/
def getOrCreateAuthTokenV1 (fresh : String) (st : Store) : String × Store :=
  getOrCreateAuthTokenAt DB_TOKEN_KEY_V1 fresh st

/-- `getOrCreateAuthToken` of the bundled variant. -/
def getOrCreateAuthTokenV2 (fresh : String) (st : Store) : String × Store :=
  getOrCreateAuthTokenAt DB_AUTH_TOKEN_KEY_V2 fresh st

/-- Client-side state: the local storage plus the (opaque) substrate
contents, so that purely local operations can be seen to leave the
substrate untouched. -/
structure ClientState where
  locStore : Store
  substrate : List (Nat × String)

/-- Model of `clearDatabaseCache` in the databaseManager component: remove
the namespace and schema keys; the token is deliberately kept (the source
comments that it is needed to decrypt existing data).  No substrate
operation is performed. -/
def clearDatabaseCacheV1 (s : ClientState) : ClientState :=
  { s with locStore := removeItem DB_SCHEMA_KEY_V1 (removeItem DB_NAMESPACE_KEY_V1 s.locStore) }

/-- Model of `clearDatabaseCache` in the bundled variant: remove the
namespace, schema-height, records-index and auth-token keys.  No substrate
operation is performed. -/
def clearDatabaseCacheV2 (s : ClientState) : ClientState :=
  { s with
    locStore :=
      removeItem DB_AUTH_TOKEN_KEY_V2
        (removeItem DB_RECORDS_KEY_V2
          (removeItem DB_SCHEMA_HEIGHT_KEY_V2
            (removeItem DB_NAMESPACE_KEY_V2 s.locStore))) }

/-- One entry of the bundled variant's local records index
(`{height, timestamp}` as pushed by `addDatabaseRecord`). -/
structure RecordInfo where
  height : Nat
  timestamp : String
deriving DecidableEq, Repr

/-- The loop body of `retrieveDatabaseRecords` (bundled variant): for each
index entry, fetch and decrypt the blob at its height; a `none` from the
oracle models either a failed/empty `retrieveBlob` or a failed
`decryptData` — both are caught, logged and skipped (`continue with other
records even if one fails`).  Successes carry the decrypted record string
and have the entry's height attached. -/
def retrieveRecordsLoop (recordsList : List RecordInfo)
    (oracle : Nat → Option String) : List (String × Nat) :=
  match recordsList with
  | [] => []
  | ri :: rest =>
    match oracle ri.height with
    | none => retrieveRecordsLoop rest oracle
    | some r => (r, ri.height) :: retrieveRecordsLoop rest oracle

/-- Model of `retrieveDatabaseRecords` (bundled variant): read the
namespace (throw if falsy), return `[]` early on an empty index, otherwise
get-or-create the auth token and run the fetch/decrypt loop.  The records
list stands for the parsed `celestia_db_records` JSON; the result pairs the
outcome with the possibly token-updated store. -/
def retrieveDatabaseRecordsV2 (recordsList : List RecordInfo) (fresh : String)
    (st : Store) (oracle : Nat → Option String) :
    Except String (List (String × Nat)) × Store :=
  if jsFalsyStr (getItem DB_NAMESPACE_KEY_V2 st) then
    (.error "Database not initialized", st)
  else if recordsList.length = 0 then (.ok [], st)
  else
    let to2 := getOrCreateAuthTokenV2 fresh st
    (.ok (retrieveRecordsLoop recordsList oracle), to2.2)

/-- Local-storage effect of `initializeDatabase` (bundled variant):
get-or-create the auth token, then — only if the `submitBlob` call
succeeded — store namespace, schema height and an empty records list (in
that order).  All validation/encryption failures and a failed submit throw
before any of those writes. -/
def initializeDatabaseStoreV2 (ns heightStr fresh : String) (submitOk : Bool)
    (st : Store) : Store :=
  let st1 := (getOrCreateAuthTokenV2 fresh st).2
  if submitOk then
    setItem DB_RECORDS_KEY_V2 "[]"
      (setItem DB_SCHEMA_HEIGHT_KEY_V2 heightStr (setItem DB_NAMESPACE_KEY_V2 ns st1))
  else st1

/-- Local-storage effect of `addDatabaseRecord` (bundled variant): throw if
namespace or schema height is falsy; otherwise get-or-create the auth
token, and on a successful submit overwrite the records index with the
appended list (its JSON text passed as `newRecsJson`). -/
def addDatabaseRecordStoreV2 (newRecsJson fresh : String) (submitOk : Bool)
    (st : Store) : Store :=
  if jsFalsyStr (getItem DB_NAMESPACE_KEY_V2 st)
      || jsFalsyStr (getItem DB_SCHEMA_HEIGHT_KEY_V2 st) then st
  else
    let st1 := (getOrCreateAuthTokenV2 fresh st).2
    if submitOk then setItem DB_RECORDS_KEY_V2 newRecsJson st1 else st1

/-- Local-storage effect of `retrieveDatabaseSchema` (bundled variant):
throw if namespace or schema height is falsy; its only write path is the
get-or-create of the auth token. -/
def retrieveDatabaseSchemaStoreV2 (fresh : String) (st : Store) : Store :=
  if jsFalsyStr (getItem DB_NAMESPACE_KEY_V2 st)
      || jsFalsyStr (getItem DB_SCHEMA_HEIGHT_KEY_V2 st) then st
  else (getOrCreateAuthTokenV2 fresh st).2

/-! ### WebSocket RPC transport (`websocket.js`) -/

/-- Maximum reconnect attempts (`maxReconnectAttempts`). -/
def maxReconnectAttempts : Nat := 5

/-- Transport state touched by the `ws.onclose` handler: the connected
flag, whether a socket object exists (`ws !== null`), the reconnect attempt
counter, and the ids in the pending-request table. -/
structure WsState where
  isConnected : Bool
  wsOpen : Bool
  reconnectAttempts : Nat
  pending : List Nat
deriving DecidableEq, Repr

/-- Externally visible effect of one `ws.onclose` run: either a reconnect
is scheduled after the given delay (`setTimeout(connectWebSocket, delay)`),
or the handler reports the terminal disconnected state to the UI. -/
inductive CloseEffect
  | scheduleReconnect (delay : Nat)
  | reportDisconnected
deriving DecidableEq, Repr

/-- Model of the `ws.onclose` handler: clear the connected flag and the
socket, then either bump the attempt counter and schedule a reconnect after
`min(1000 * attempts, 5000)` ms, or report terminal disconnection.  The
third component lists the pending requests the handler fails — the source
rejects none. -/
def wsOnClose (s : WsState) : WsState × CloseEffect × List Nat :=
  let s1 : WsState := { s with isConnected := false, wsOpen := false }
  if s.reconnectAttempts < maxReconnectAttempts then
    ({ s1 with reconnectAttempts := s.reconnectAttempts + 1 },
      .scheduleReconnect (min (1000 * (s.reconnectAttempts + 1)) 5000), [])
  else (s1, .reportDisconnected, [])

/-- The close effects produced by `n` consecutive abnormal closes starting
from attempt counter `a` (no successful reconnect in between, since
`ws.onopen` is what resets the counter). -/
def closeEffectsFrom (a : Nat) : Nat → List CloseEffect
  | 0 => []
  | n + 1 =>
    let r := wsOnClose ⟨false, false, a, []⟩
    r.2.1 :: closeEffectsFrom r.1.reconnectAttempts n

/-- The reconnect delays scheduled over `n` consecutive abnormal closes of
a fresh connection. -/
def reconnectDelays (n : Nat) : List Nat :=
  (closeEffectsFrom 0 n).filterMap
    (fun e => match e with
      | .scheduleReconnect d => some d
      | .reportDisconnected => none)

/-! ### Codec lemmas -/

theorem b64Val_b64Char : ∀ n, n < 64 → b64Val (b64Char n) = some n := by decide

theorem b64Char_ne_pad (n : Nat) : (b64Char n != '=') = true := by
  by_cases h : n < 64
  · revert h; revert n; decide
  · have hlen : b64Alphabet.length ≤ n := by
      have : b64Alphabet.length = 64 := by decide
      omega
    unfold b64Char
    rw [List.getD_eq_default _ _ hlen]
    decide

theorem atobChars_filter_btoaChars :
    ∀ bs : List Nat, (∀ b ∈ bs, b < 256) →
      atobChars ((btoaChars bs).filter (fun c => c != '=')) = some bs := by
  intro bs
  induction bs using btoaChars.induct with
  | case1 => intro _; rfl
  | case2 b1 =>
    intro h
    have hb1 : b1 < 256 := h b1 (by simp)
    have hf : (btoaChars [b1]).filter (fun c => c != '=') =
        [b64Char (b1 / 4), b64Char (b1 % 4 * 16)] := by
      simp [btoaChars, List.filter, b64Char_ne_pad]
    rw [hf]
    simp only [atobChars]
    rw [b64Val_b64Char _ (by omega : b1 / 4 < 64),
      b64Val_b64Char _ (by omega : b1 % 4 * 16 < 64)]
    simp only [Option.bind_eq_bind, Option.some_bind, Option.pure_def, Option.some.injEq,
      List.cons.injEq, and_true]
    omega
  | case3 b1 b2 =>
    intro h
    have hb1 : b1 < 256 := h b1 (by simp)
    have hb2 : b2 < 256 := h b2 (by simp)
    have hf : (btoaChars [b1, b2]).filter (fun c => c != '=') =
        [b64Char (b1 / 4), b64Char (b1 % 4 * 16 + b2 / 16), b64Char (b2 % 16 * 4)] := by
      simp [btoaChars, List.filter, b64Char_ne_pad]
    rw [hf]
    simp only [atobChars]
    rw [b64Val_b64Char _ (by omega : b1 / 4 < 64),
      b64Val_b64Char _ (by omega : b1 % 4 * 16 + b2 / 16 < 64),
      b64Val_b64Char _ (by omega : b2 % 16 * 4 < 64)]
    simp only [Option.bind_eq_bind, Option.some_bind, Option.pure_def, Option.some.injEq,
      List.cons.injEq, and_true]
    exact ⟨by omega, by omega⟩
  | case4 b1 b2 b3 rest ih =>
    intro h
    have hb1 : b1 < 256 := h b1 (by simp)
    have hb2 : b2 < 256 := h b2 (by simp)
    have hb3 : b3 < 256 := h b3 (by simp)
    have hrest : ∀ b ∈ rest, b < 256 := fun b hb => h b (by simp [hb])
    have hf : (btoaChars (b1 :: b2 :: b3 :: rest)).filter (fun c => c != '=') =
        b64Char (b1 / 4) :: b64Char (b1 % 4 * 16 + b2 / 16) ::
          b64Char (b2 % 16 * 4 + b3 / 64) :: b64Char (b3 % 64) ::
          (btoaChars rest).filter (fun c => c != '=') := by
      simp [btoaChars, List.filter, b64Char_ne_pad]
    rw [hf]
    simp only [atobChars]
    rw [b64Val_b64Char _ (by omega : b1 / 4 < 64),
      b64Val_b64Char _ (by omega : b1 % 4 * 16 + b2 / 16 < 64),
      b64Val_b64Char _ (by omega : b2 % 16 * 4 + b3 / 64 < 64),
      b64Val_b64Char _ (by omega : b3 % 64 < 64), ih hrest]
    simp only [Option.bind_eq_bind, Option.some_bind, Option.pure_def, Option.some.injEq,
      List.cons.injEq, and_true]
    exact ⟨by omega, by omega, by omega⟩

/-- The round trip through the modelled `btoa` and `atob`. -/
theorem atob_btoa (bs : List Nat) (h : ∀ b ∈ bs, b < 256) :
    atob (btoa bs) = some bs := by
  unfold atob btoa
  rw [show (String.mk (btoaChars bs)).toList = btoaChars bs from rfl]
  exact atobChars_filter_btoaChars bs h

theorem hexVal_hexChar : ∀ u : Bool, ∀ n, n < 16 → hexVal (hexChar u n) = some n := by
  decide

theorem hexValD_hexChar (u : Bool) (n : Nat) (h : n < 16) : hexValD (hexChar u n) = n := by
  unfold hexValD
  rw [hexVal_hexChar u n h]
  rfl

theorem hexPairsToBytes_bytesToHexChars (u : Bool) :
    ∀ bs : List Nat, (∀ b ∈ bs, b < 256) →
      hexPairsToBytes (bytesToHexChars u bs) = bs := by
  intro bs
  induction bs with
  | nil => intro _; rfl
  | cons b rest ih =>
    intro h
    have hb : b < 256 := h b (by simp)
    have hrest : ∀ x ∈ rest, x < 256 := fun x hx => h x (by simp [hx])
    have hsh : bytesToHexChars u (b :: rest) =
        hexChar u (b / 16) :: hexChar u (b % 16) :: bytesToHexChars u rest := by
      simp [bytesToHexChars, byteToHexChars]
    rw [hsh]
    simp only [hexPairsToBytes]
    rw [hexValD_hexChar u _ (by omega), hexValD_hexChar u _ (by omega), ih hrest]
    congr 1
    omega

theorem bytesToHexChars_length (u : Bool) :
    ∀ bs : List Nat, (bytesToHexChars u bs).length = 2 * bs.length := by
  intro bs
  induction bs with
  | nil => rfl
  | cons b rest ih =>
    simp only [bytesToHexChars, byteToHexChars, List.length_append, List.length_cons, ih,
      List.length_nil]
    omega

theorem bytesToHexChars_inj (u : Bool) (bs1 bs2 : List Nat)
    (h1 : ∀ b ∈ bs1, b < 256) (h2 : ∀ b ∈ bs2, b < 256)
    (heq : bytesToHexChars u bs1 = bytesToHexChars u bs2) : bs1 = bs2 := by
  have := congrArg hexPairsToBytes heq
  rwa [hexPairsToBytes_bytesToHexChars u bs1 h1,
    hexPairsToBytes_bytesToHexChars u bs2 h2] at this

theorem mem_hexDigitsLower_of_mem_bytesToHexChars :
    ∀ bs : List Nat, (∀ b ∈ bs, b < 256) →
      ∀ c ∈ bytesToHexChars false bs, c ∈ hexDigitsLower := by
  intro bs
  induction bs with
  | nil => intro _ c hc; simp [bytesToHexChars] at hc
  | cons b rest ih =>
    intro h c hc
    have hb : b < 256 := h b (by simp)
    have hrest : ∀ x ∈ rest, x < 256 := fun x hx => h x (by simp [hx])
    simp only [bytesToHexChars, byteToHexChars, List.cons_append, List.nil_append,
      List.mem_cons] at hc
    rcases hc with rfl | rfl | hc
    · have : b / 16 < 16 := by omega
      revert this
      generalize b / 16 = n
      revert n; decide
    · have : b % 16 < 16 := by omega
      revert this
      generalize b % 16 = n
      revert n; decide
    · exact ih hrest c hc

/-! ### Substring-search lemmas -/

theorem isPrefixOfB_length_le :
    ∀ p h : List Char, isPrefixOfB p h = true → p.length ≤ h.length := by
  intro p
  induction p with
  | nil => intro h _; simp
  | cons a as ih =>
    intro h hp
    cases h with
    | nil => simp [isPrefixOfB] at hp
    | cons b bs =>
      simp only [isPrefixOfB, Bool.and_eq_true, beq_iff_eq] at hp
      simpa using Nat.succ_le_succ (ih bs hp.2)

theorem isPrefixOfB_eq_of_length :
    ∀ p h : List Char, p.length = h.length → (isPrefixOfB p h = true ↔ p = h) := by
  intro p
  induction p with
  | nil =>
    intro h hlen
    cases h with
    | nil => simp [isPrefixOfB]
    | cons b bs => simp at hlen
  | cons a as ih =>
    intro h hlen
    cases h with
    | nil => simp at hlen
    | cons b bs =>
      simp only [List.length_cons, Nat.succ.injEq] at hlen
      simp only [isPrefixOfB, Bool.and_eq_true, beq_iff_eq, List.cons.injEq]
      rw [ih bs hlen]

theorem isPrefixOfB_subset :
    ∀ p h : List Char, isPrefixOfB p h = true → ∀ c ∈ p, c ∈ h := by
  intro p
  induction p with
  | nil => intro h _ c hc; simp at hc
  | cons a as ih =>
    intro h hp c hc
    cases h with
    | nil => simp [isPrefixOfB] at hp
    | cons b bs =>
      simp only [isPrefixOfB, Bool.and_eq_true, beq_iff_eq] at hp
      rcases List.mem_cons.mp hc with rfl | hc2
      · simp [hp.1]
      · simp [ih bs hp.2 c hc2]

theorem listIncludes_false_of_longer :
    ∀ hay p : List Char, hay.length < p.length → listIncludes hay p = false := by
  intro hay
  induction hay with
  | nil =>
    intro p hlen
    cases p with
    | nil => simp at hlen
    | cons a as => simp [listIncludes, isPrefixOfB]
  | cons b bs ih =>
    intro p hlen
    simp only [listIncludes, Bool.or_eq_false_iff]
    constructor
    · cases hp : isPrefixOfB p (b :: bs)
      · rfl
      · have := isPrefixOfB_length_le p (b :: bs) hp
        omega
    · exact ih p (by simp at hlen ⊢; omega)

theorem listIncludes_eq_iff :
    ∀ hay p : List Char, p.length = hay.length →
      (listIncludes hay p = true ↔ hay = p) := by
  intro hay p hlen
  cases hay with
  | nil =>
    cases p with
    | nil => simp [listIncludes, isPrefixOfB]
    | cons a as => simp at hlen
  | cons b bs =>
    simp only [listIncludes, Bool.or_eq_true]
    constructor
    · rintro (hp | hinc)
      · exact ((isPrefixOfB_eq_of_length p (b :: bs) hlen).mp hp).symm
      · have : listIncludes bs p = false :=
          listIncludes_false_of_longer bs p (by simp at hlen ⊢; omega)
        rw [this] at hinc
        cases hinc
    · rintro rfl
      exact Or.inl ((isPrefixOfB_eq_of_length _ _ hlen).mpr rfl)

theorem listIncludes_false_of_not_mem :
    ∀ hay p : List Char, ∀ c, c ∈ p → c ∉ hay → listIncludes hay p = false := by
  intro hay
  induction hay with
  | nil =>
    intro p c hcp _
    cases p with
    | nil => simp at hcp
    | cons a as => simp [listIncludes, isPrefixOfB]
  | cons b bs ih =>
    intro p c hcp hch
    simp only [listIncludes, Bool.or_eq_false_iff]
    constructor
    · cases hp : isPrefixOfB p (b :: bs)
      · rfl
      · exact absurd (isPrefixOfB_subset p (b :: bs) hp c hcp) hch
    · exact ih p c hcp (fun hmem => hch (List.mem_cons_of_mem b hmem))

/-! ### Claim C2: pending requests at abnormal close -/

/-- Claim C2 (corrected): on abnormal close the handler clears the
connection state but leaves the pending-request table exactly as it was and
fails no pending request — in-flight requests receive no retryable-error
signal from the close handler. -/
theorem wsOnClose_leaves_pending_unresolved (s : WsState) :
    (wsOnClose s).1.pending = s.pending ∧ (wsOnClose s).2.2 = [] ∧
      (wsOnClose s).1.isConnected = false ∧ (wsOnClose s).1.wsOpen = false := by
  unfold wsOnClose
  by_cases h : s.reconnectAttempts < maxReconnectAttempts <;> simp [h]

/-- Claim C2 counterexample: with request id 1 pending, the close handler
fails no request and id 1 is still in the pending table afterwards, so the
claim that every pending request is failed with a retryable error is false
at this state. -/
theorem wsOnClose_counterexample :
    (wsOnClose ⟨true, true, 0, [1]⟩).2.2 = [] ∧
      (wsOnClose ⟨true, true, 0, [1]⟩).1.pending = [1] := by
  constructor <;> rfl

/-! ### Claim C9: resetLocalState -/

/-- Claim C9 (corrected): the bundled variant's `clearDatabaseCache` clears
all four local keys — namespace, schema position, records index and secret
token — and leaves the substrate untouched; the databaseManager variant
clears only the namespace and schema keys and deliberately preserves the
token (and neither variant touches the substrate). -/
theorem clearDatabaseCache_behaviour (s : ClientState) :
    (clearDatabaseCacheV2 s).locStore DB_NAMESPACE_KEY_V2 = none ∧
      (clearDatabaseCacheV2 s).locStore DB_SCHEMA_HEIGHT_KEY_V2 = none ∧
      (clearDatabaseCacheV2 s).locStore DB_RECORDS_KEY_V2 = none ∧
      (clearDatabaseCacheV2 s).locStore DB_AUTH_TOKEN_KEY_V2 = none ∧
      (clearDatabaseCacheV2 s).substrate = s.substrate ∧
      (clearDatabaseCacheV1 s).locStore DB_NAMESPACE_KEY_V1 = none ∧
      (clearDatabaseCacheV1 s).locStore DB_SCHEMA_KEY_V1 = none ∧
      (clearDatabaseCacheV1 s).locStore DB_TOKEN_KEY_V1 = s.locStore DB_TOKEN_KEY_V1 ∧
      (clearDatabaseCacheV1 s).substrate = s.substrate := by
  unfold clearDatabaseCacheV1 clearDatabaseCacheV2 removeItem
  refine ⟨?_, ?_, ?_, ?_, rfl, ?_, ?_, ?_, rfl⟩ <;>
    simp [DB_NAMESPACE_KEY_V2, DB_SCHEMA_HEIGHT_KEY_V2, DB_RECORDS_KEY_V2,
      DB_AUTH_TOKEN_KEY_V2, DB_NAMESPACE_KEY_V1, DB_SCHEMA_KEY_V1, DB_TOKEN_KEY_V1]

/-- Claim C9 counterexample: a state whose token key is set survives the
databaseManager variant's `clearDatabaseCache` with the token intact, so
the claim that the secret token is cleared is false for it. -/
theorem clearDatabaseCache_counterexample :
    (clearDatabaseCacheV1
        ⟨setItem DB_TOKEN_KEY_V1 "tok" (setItem DB_NAMESPACE_KEY_V1 "ns" emptyStore),
          []⟩).locStore DB_TOKEN_KEY_V1 = some "tok" := by
  decide

/-! ### Claim C10: auth-token stability -/

theorem getOrCreateAuthTokenAt_of_some {key fresh st t} (h : st key = some t)
    (ht : t ≠ "") : getOrCreateAuthTokenAt key fresh st = (t, st) := by
  unfold getOrCreateAuthTokenAt getItem
  rw [h]
  simp [ht]

theorem getOrCreateAuthTokenV2_snd_token {fresh st t}
    (h : st DB_AUTH_TOKEN_KEY_V2 = some t) (ht : t ≠ "") :
    (getOrCreateAuthTokenV2 fresh st).2 = st := by
  unfold getOrCreateAuthTokenV2
  rw [getOrCreateAuthTokenAt_of_some h ht]

/-- Claim C10 (corrected): `getOrCreateAuthToken` returns a stored
*non-empty* token unchanged without touching the store, mints and persists
the fresh token exactly when the stored token is absent, two consecutive
calls agree, and no record-store operation (initialize, append, schema
retrieval, listing) overwrites a stored non-empty token.  (A stored *empty*
token is falsy in JavaScript and is overwritten, which is why the claim as
stated is corrected.) -/
theorem authToken_stability :
    (∀ key fresh st t, getItem key st = some t → t ≠ "" →
      getOrCreateAuthTokenAt key fresh st = (t, st)) ∧
    (∀ key fresh st, getItem key st = none →
      getOrCreateAuthTokenAt key fresh st = (fresh, setItem key fresh st)) ∧
    (∀ key f1 f2 st, f1 ≠ "" →
      (getOrCreateAuthTokenAt key f2 ((getOrCreateAuthTokenAt key f1 st).2)).1 =
        (getOrCreateAuthTokenAt key f1 st).1) ∧
    (∀ ns hs fresh ok st t, getItem DB_AUTH_TOKEN_KEY_V2 st = some t → t ≠ "" →
      getItem DB_AUTH_TOKEN_KEY_V2 (initializeDatabaseStoreV2 ns hs fresh ok st) =
        some t) ∧
    (∀ nr fresh ok st t, getItem DB_AUTH_TOKEN_KEY_V2 st = some t → t ≠ "" →
      getItem DB_AUTH_TOKEN_KEY_V2 (addDatabaseRecordStoreV2 nr fresh ok st) = some t) ∧
    (∀ fresh st t, getItem DB_AUTH_TOKEN_KEY_V2 st = some t → t ≠ "" →
      getItem DB_AUTH_TOKEN_KEY_V2 (retrieveDatabaseSchemaStoreV2 fresh st) = some t) ∧
    (∀ rl fresh st oracle t, getItem DB_AUTH_TOKEN_KEY_V2 st = some t → t ≠ "" →
      getItem DB_AUTH_TOKEN_KEY_V2 ((retrieveDatabaseRecordsV2 rl fresh st oracle).2) =
        some t) := by
  refine ⟨?_, ?_, ?_, ?_, ?_, ?_, ?_⟩
  · intro key fresh st t h ht
    exact getOrCreateAuthTokenAt_of_some h ht
  · intro key fresh st h
    unfold getItem at h
    unfold getOrCreateAuthTokenAt getItem
    rw [h]
    simp
  · intro key f1 f2 st hf1
    unfold getOrCreateAuthTokenAt getItem setItem
    by_cases h : (st key).getD "" = ""
    · simp [h, hf1]
    · simp [h]
  · intro ns hs fresh ok st t h ht
    unfold initializeDatabaseStoreV2
    rw [getOrCreateAuthTokenV2_snd_token h ht]
    cases ok <;>
      simp [getItem, setItem, h, DB_AUTH_TOKEN_KEY_V2, DB_RECORDS_KEY_V2,
        DB_SCHEMA_HEIGHT_KEY_V2, DB_NAMESPACE_KEY_V2] <;>
      exact h
  · intro nr fresh ok st t h ht
    unfold addDatabaseRecordStoreV2
    by_cases hg : (jsFalsyStr (getItem DB_NAMESPACE_KEY_V2 st)
        || jsFalsyStr (getItem DB_SCHEMA_HEIGHT_KEY_V2 st)) = true
    · rw [if_pos hg]; exact h
    · rw [if_neg hg, getOrCreateAuthTokenV2_snd_token h ht]
      cases ok <;>
        simp [getItem, setItem, h, DB_AUTH_TOKEN_KEY_V2, DB_RECORDS_KEY_V2] <;>
        exact h
  · intro fresh st t h ht
    unfold retrieveDatabaseSchemaStoreV2
    by_cases hg : (jsFalsyStr (getItem DB_NAMESPACE_KEY_V2 st)
        || jsFalsyStr (getItem DB_SCHEMA_HEIGHT_KEY_V2 st)) = true
    · rw [if_pos hg]; exact h
    · rw [if_neg hg, getOrCreateAuthTokenV2_snd_token h ht]; exact h
  · intro rl fresh st oracle t h ht
    unfold retrieveDatabaseRecordsV2
    by_cases hns : jsFalsyStr (getItem DB_NAMESPACE_KEY_V2 st) = true
    · rw [if_pos hns]; exact h
    · rw [if_neg hns]
      by_cases hlen : rl.length = 0
      · rw [if_pos hlen]; exact h
      · rw [if_neg hlen]
        show getItem DB_AUTH_TOKEN_KEY_V2 (getOrCreateAuthTokenV2 fresh st).2 = some t
        rw [getOrCreateAuthTokenV2_snd_token h ht]
        exact h

/-- Claim C10 witness. -/
theorem authToken_stability_witness :
    getOrCreateAuthTokenAt DB_AUTH_TOKEN_KEY_V2 "f"
        (setItem DB_AUTH_TOKEN_KEY_V2 "t0" emptyStore) =
      ("t0", setItem DB_AUTH_TOKEN_KEY_V2 "t0" emptyStore) ∧
    getItem DB_AUTH_TOKEN_KEY_V2
        (initializeDatabaseStoreV2 "ns" "7" "f" true
          (setItem DB_AUTH_TOKEN_KEY_V2 "t0" emptyStore)) = some "t0" := by
  constructor
  · exact authToken_stability.1 DB_AUTH_TOKEN_KEY_V2 "f"
      (setItem DB_AUTH_TOKEN_KEY_V2 "t0" emptyStore) "t0" (by decide) (by decide)
  · exact authToken_stability.2.2.2.1 "ns" "7" "f" true
      (setItem DB_AUTH_TOKEN_KEY_V2 "t0" emptyStore) "t0" (by decide) (by decide)

/-- Claim C10 counterexample: with the stored token equal to the empty
string, a token is present in local storage, yet `getOrCreateAuthToken`
replaces it by a freshly minted one — the claim that an already-stored
token is always returned unchanged is false at this state. -/
theorem authToken_counterexample :
    getItem DB_AUTH_TOKEN_KEY_V2 (setItem DB_AUTH_TOKEN_KEY_V2 "" emptyStore) =
        some "" ∧
      (getOrCreateAuthTokenV2 "fresh" (setItem DB_AUTH_TOKEN_KEY_V2 "" emptyStore)).1 =
        "fresh" ∧
      getItem DB_AUTH_TOKEN_KEY_V2
          (getOrCreateAuthTokenV2 "fresh"
            (setItem DB_AUTH_TOKEN_KEY_V2 "" emptyStore)).2 = some "fresh" := by
  refine ⟨by decide, by decide, by decide⟩

/-! ### Claim C8: reconnect loop -/

theorem closeEffectsFrom_eq (n : Nat) : ∀ a : Nat,
    closeEffectsFrom a n =
      ((List.range' a (min n (5 - a))).map
        (fun k => CloseEffect.scheduleReconnect (min (1000 * (k + 1)) 5000))) ++
      List.replicate (n - (5 - a)) CloseEffect.reportDisconnected := by
  induction n with
  | zero => intro a; simp [closeEffectsFrom]
  | succ n ih =>
    intro a
    by_cases h : a < maxReconnectAttempts
    · have hstep : closeEffectsFrom a (n + 1) =
          CloseEffect.scheduleReconnect (min (1000 * (a + 1)) 5000) ::
            closeEffectsFrom (a + 1) n := by
        simp [closeEffectsFrom, wsOnClose, h]
      rw [hstep, ih (a + 1)]
      unfold maxReconnectAttempts at h
      have h5 : min (n + 1) (5 - a) = min n (5 - (a + 1)) + 1 := by omega
      have hrep : (n + 1) - (5 - a) = n - (5 - (a + 1)) := by omega
      rw [h5, List.range'_succ, hrep]
      simp
    · have hstep : closeEffectsFrom a (n + 1) =
          CloseEffect.reportDisconnected :: closeEffectsFrom a n := by
        simp [closeEffectsFrom, wsOnClose, h]
      rw [hstep, ih a]
      unfold maxReconnectAttempts at h
      have h5 : 5 - a = 0 := by omega
      simp [h5, List.replicate_succ]

/-- Claim C8 (confirmed): over any number `n` of consecutive abnormal
closes, the handler schedules exactly `min n 5` reconnect attempts — never
more than the configured maximum of 5 — whose delays are the non-decreasing
sequence `min (1000·k) 5000` capped at 5000 ms, and every close beyond the
fifth produces no schedule but the terminal disconnected report. -/
theorem reconnect_backoff :
    (∀ n, reconnectDelays n =
      (List.range' 0 (min n 5)).map (fun k => min (1000 * (k + 1)) 5000)) ∧
    (∀ n, (reconnectDelays n).length = min n 5) ∧
    (∀ n d, d ∈ reconnectDelays n → d ≤ 5000) ∧
    (∀ n, (reconnectDelays n).Pairwise (· ≤ ·)) ∧
    (∀ n k, 5 ≤ k → k < n →
      (closeEffectsFrom 0 n)[k]? = some CloseEffect.reportDisconnected) := by
  have hform : ∀ n, reconnectDelays n =
      (List.range' 0 (min n 5)).map (fun k => min (1000 * (k + 1)) 5000) := by
    intro n
    unfold reconnectDelays
    rw [closeEffectsFrom_eq n 0]
    rw [List.filterMap_append]
    have h1 : ∀ l : List Nat,
        (l.map (fun k => CloseEffect.scheduleReconnect (min (1000 * (k + 1)) 5000))).filterMap
          (fun e => match e with
            | .scheduleReconnect d => some d
            | .reportDisconnected => none) =
        l.map (fun k => min (1000 * (k + 1)) 5000) := by
      intro l
      induction l with
      | nil => rfl
      | cons x xs ihx => simp [List.filterMap_cons, ihx]
    have h2 : ∀ m : Nat,
        (List.replicate m CloseEffect.reportDisconnected).filterMap
          (fun e => match e with
            | .scheduleReconnect d => some d
            | .reportDisconnected => none) = [] := by
      intro m
      induction m with
      | zero => rfl
      | succ m ihm => simp [List.replicate_succ, List.filterMap_cons, ihm]
    rw [h1, h2, List.append_nil]
  refine ⟨hform, ?_, ?_, ?_, ?_⟩
  · intro n
    rw [hform n]
    simp
  · intro n d hd
    rw [hform n] at hd
    simp only [List.mem_map] at hd
    obtain ⟨k, _, rfl⟩ := hd
    omega
  · intro n
    rw [hform n]
    have hr : ∀ s m : Nat, (List.range' s m).Pairwise (· < ·) := by
      intro s m
      induction m generalizing s with
      | zero => simp
      | succ m ihm =>
        rw [List.range'_succ]
        refine List.Pairwise.cons ?_ (ihm (s + 1))
        intro b hb
        have := List.mem_range'_1.mp hb
        omega
    exact List.Pairwise.map _ (fun a b hab => by omega) (hr 0 (min n 5))
  · intro n k hk5 hkn
    rw [closeEffectsFrom_eq n 0]
    have hlen : ((List.range' 0 (min n 5)).map
        (fun k => CloseEffect.scheduleReconnect (min (1000 * (k + 1)) 5000))).length =
          min n 5 := by simp
    rw [List.getElem?_append_right (by omega : ((List.range' 0 (min n 5)).map
      (fun k => CloseEffect.scheduleReconnect (min (1000 * (k + 1)) 5000))).length ≤ k)]
    rw [hlen]
    rw [List.getElem?_replicate]
    rw [if_pos (by omega)]

/-- Claim C8 witness. -/
theorem reconnect_backoff_witness :
    reconnectDelays 7 = [1000, 2000, 3000, 4000, 5000] ∧
      (reconnectDelays 7).length = min 7 5 ∧
      (closeEffectsFrom 0 7)[6]? = some CloseEffect.reportDisconnected := by
  refine ⟨?_, reconnect_backoff.2.1 7, reconnect_backoff.2.2.2.2 7 6 (by decide) (by decide)⟩
  rw [reconnect_backoff.1 7]
  decide

/-! ### Claim C4: schema validation -/

theorem checkField_isSome (record : String → JsVal) (f : String) (ft : Option String)
    (req : Bool)
    (hty : ft = none ∨ ft.getD "" ∈ ["string", "number", "boolean", "object", "array"]) :
    (checkField record f ⟨ft, req⟩).isSome = fieldViolation record f ⟨ft, req⟩ := by
  rcases hft : ft with _ | t
  · cases req <;> cases h : record f <;>
      simp [checkField, fieldViolation, typeMatches, jsTypeOf, jsIsArray, h]
  · subst hft
    rcases hty with hn | hmem
    · cases hn
    · simp only [Option.getD, List.mem_cons, List.mem_singleton] at hmem
      rcases hmem with rfl | rfl | rfl | rfl | rfl | habs
      · cases req <;> cases h : record f <;>
          simp [checkField, fieldViolation, typeMatches, jsTypeOf, jsIsArray, h]
      · cases req <;> cases h : record f <;>
          simp [checkField, fieldViolation, typeMatches, jsTypeOf, jsIsArray, h]
      · cases req <;> cases h : record f <;>
          simp [checkField, fieldViolation, typeMatches, jsTypeOf, jsIsArray, h]
      · cases req <;> cases h : record f <;>
          simp [checkField, fieldViolation, typeMatches, jsTypeOf, jsIsArray, h]
      · cases req <;> cases h : record f <;>
          simp [checkField, fieldViolation, typeMatches, jsTypeOf, jsIsArray, h]
      · simp at habs

/-- Claim C4 (confirmed): for a schema whose declared types are among the
five supported ones, `validateDataAgainstSchema` fails exactly when some
declared field is required but absent or null, or is present with a runtime
type that does not match its declared type (`object` excluding arrays,
`array` requiring `Array.isArray`); absent optional fields are skipped, so
a record satisfying every declared field is accepted. -/
theorem validateDataAgainstSchema_fails_iff (record : String → JsVal) :
    ∀ fields : SchemaFields,
      (∀ p ∈ fields,
        p.2.ftype = none ∨
          p.2.ftype.getD "" ∈ ["string", "number", "boolean", "object", "array"]) →
      ((validateDataAgainstSchema record fields).isSome = true ↔
        ∃ p ∈ fields, fieldViolation record p.1 p.2 = true) := by
  intro fields
  induction fields with
  | nil => intro _; simp [validateDataAgainstSchema]
  | cons p rest ih =>
    intro hty
    obtain ⟨f, fs⟩ := p
    have hhd := hty ⟨f, fs⟩ (by simp)
    have htl : ∀ q ∈ rest, q.2.ftype = none ∨
        q.2.ftype.getD "" ∈ ["string", "number", "boolean", "object", "array"] :=
      fun q hq => hty q (by simp [hq])
    have hcf : (checkField record f fs).isSome = fieldViolation record f fs := by
      cases fs with
      | mk ft req => exact checkField_isSome record f ft req hhd
    simp only [validateDataAgainstSchema]
    cases hc : checkField record f fs with
    | some e =>
      rw [hc] at hcf
      simp only [Option.isSome_some] at hcf
      simp only [Option.isSome_some, true_iff]
      exact ⟨⟨f, fs⟩, by simp, hcf.symm⟩
    | none =>
      rw [hc] at hcf
      simp only [Option.isSome_none] at hcf
      rw [ih htl]
      constructor
      · rintro ⟨q, hq, hviol⟩
        exact ⟨q, by simp [hq], hviol⟩
      · rintro ⟨q, hq, hviol⟩
        rcases List.mem_cons.mp hq with rfl | hq2
        · rw [hviol] at hcf
          cases hcf
        · exact ⟨q, hq2, hviol⟩

/-- Claim C4 witness: the schema `{name: {type: "string", required: true}}`
rejects the empty record and accepts `{name: "a"}`. -/
theorem validateDataAgainstSchema_witness :
    ((validateDataAgainstSchema (fun _ => JsVal.undef)
        [("name", ⟨some "string", true⟩)]).isSome = true ↔
      ∃ p ∈ [("name", (⟨some "string", true⟩ : FieldSchema))],
        fieldViolation (fun _ => JsVal.undef) p.1 p.2 = true) ∧
    ((validateDataAgainstSchema (fun _ => JsVal.jsStr)
        [("name", ⟨some "string", true⟩)]).isSome = true ↔
      ∃ p ∈ [("name", (⟨some "string", true⟩ : FieldSchema))],
        fieldViolation (fun _ => JsVal.jsStr) p.1 p.2 = true) := by
  constructor
  · exact validateDataAgainstSchema_fails_iff (fun _ => JsVal.undef)
      [("name", ⟨some "string", true⟩)] (by intro p hp; simp at hp; subst hp; simp)
  · exact validateDataAgainstSchema_fails_iff (fun _ => JsVal.jsStr)
      [("name", ⟨some "string", true⟩)] (by intro p hp; simp at hp; subst hp; simp)

/-! ### Claim C5: createValidNamespace -/

theorem createValidNamespaceV2_eq (ib : List Nat) :
    createValidNamespaceV2 ib =
      0 :: (List.replicate 18 0 ++ (List.replicate (10 - ib.length) 0 ++ ib.take 10)) := by
  unfold createValidNamespaceV2 setAt
  have hlen10 : (ib.take 10).length = min 10 ib.length := by simp
  have h1 : (List.replicate 10 (0 : Nat)).take (10 - ib.length) =
      List.replicate (10 - ib.length) (0 : Nat) := by
    rw [List.take_replicate]
    congr 1
    omega
  have h2 : (List.replicate 10 (0 : Nat)).drop (10 - ib.length + (ib.take 10).length) =
      [] := by
    rw [List.drop_replicate]
    rw [hlen10]
    have hz : 10 - (10 - ib.length + min 10 ib.length) = 0 := by omega
    rw [hz]
    rfl
  dsimp only
  rw [h1, h2, List.append_nil]
  have h3 : (List.replicate 28 (0 : Nat)).take 18 = List.replicate 18 (0 : Nat) := by
    rw [List.take_replicate]
    norm_num
  have h4 : (List.replicate 28 (0 : Nat)).drop
      (18 + (List.replicate (10 - ib.length) (0 : Nat) ++ ib.take 10).length) = [] := by
    rw [List.drop_replicate]
    have hz : 28 - (18 + (List.replicate (10 - ib.length) (0 : Nat) ++ ib.take 10).length)
        = 0 := by
      simp only [List.length_append, List.length_replicate, hlen10]
      omega
    rw [hz]
    rfl
  rw [h3, h4, List.append_nil]
  have h5 : (List.replicate 29 (0 : Nat)).take 0 = [] := List.take_zero _
  have h6 : (List.replicate 29 (0 : Nat)).drop (0 + [(0 : Nat)].length) =
      List.replicate 28 (0 : Nat) := by
    simp
  rw [h5, h6, List.nil_append]
  have h7 : ([0] ++ List.replicate 28 (0 : Nat)).take 1 = [0] := rfl
  have h8 : ([0] ++ List.replicate 28 (0 : Nat)).drop
      (1 + (List.replicate 18 (0 : Nat) ++
        (List.replicate (10 - ib.length) (0 : Nat) ++ ib.take 10)).length) = [] := by
    have hl : (List.replicate 18 (0 : Nat) ++
        (List.replicate (10 - ib.length) (0 : Nat) ++ ib.take 10)).length = 28 := by
      simp only [List.length_append, List.length_replicate, hlen10]
      omega
    rw [hl]
    rfl
  rw [h7, h8, List.append_nil]
  rfl

/-- Claim C5 (corrected): for inputs of at most 10 bytes,
`createValidNamespace` (bundled variant) deterministically produces the
version-0, 29-byte namespace with bytes 1–18 zero and the input left-padded
into the last 10 bytes, as claimed; but an input exceeding 10 bytes does
not fail with any error — it is silently truncated to its first 10 bytes.
(The `common.js` variant instead copies up to 28 input bytes directly after
the version byte, with no error either.) -/
theorem createValidNamespace_behaviour :
    (∀ ib : List Nat, ib.length ≤ 10 →
      createValidNamespaceV2 ib =
        0 :: (List.replicate 18 0 ++ (List.replicate (10 - ib.length) 0 ++ ib))) ∧
    (∀ ib : List Nat, 10 < ib.length →
      createValidNamespaceV2 ib = createValidNamespaceV2 (ib.take 10)) ∧
    (∀ ib : List Nat, (createValidNamespaceV2 ib).length = 29) ∧
    (∀ ib : List Nat, createValidNamespaceV1 ib =
      0 :: (ib.take 28 ++ List.replicate (28 - ib.length) 0)) := by
  refine ⟨?_, ?_, ?_, ?_⟩
  · intro ib hle
    rw [createValidNamespaceV2_eq, List.take_of_length_le hle]
  · intro ib hgt
    rw [createValidNamespaceV2_eq, createValidNamespaceV2_eq]
    have h1 : (ib.take 10).take 10 = ib.take 10 := by
      rw [List.take_take]
      norm_num
    have h2 : (ib.take 10).length = 10 := by
      rw [List.length_take]
      omega
    rw [h1, h2]
    have h3 : 10 - ib.length = 0 := by omega
    rw [h3]
  · intro ib
    rw [createValidNamespaceV2_eq]
    simp only [List.length_cons, List.length_append, List.length_replicate,
      List.length_take]
    omega
  · intro ib
    unfold createValidNamespaceV1 setAt
    have h1 : (0 :: List.replicate 28 (0 : Nat)).take 1 = [0] := rfl
    have h2 : (0 :: List.replicate 28 (0 : Nat)).drop (1 + (ib.take 28).length) =
        List.replicate (28 - ib.length) (0 : Nat) := by
      rw [List.length_take]
      rw [show (0 : Nat) :: List.replicate 28 (0 : Nat) =
        List.replicate 29 (0 : Nat) from rfl]
      rw [List.drop_replicate]
      congr 1
      omega
    rw [h1, h2]
    rfl

/-- Claim C5 witness. -/
theorem createValidNamespace_witness :
    createValidNamespaceV2 [1, 2, 3] =
      0 :: (List.replicate 18 0 ++ (List.replicate (10 - ([1, 2, 3] : List Nat).length) 0
        ++ [1, 2, 3])) ∧
    createValidNamespaceV1 [1, 2, 3] =
      0 :: (([1, 2, 3] : List Nat).take 28 ++
        List.replicate (28 - ([1, 2, 3] : List Nat).length) 0) :=
  ⟨createValidNamespace_behaviour.1 [1, 2, 3] (by decide),
    createValidNamespace_behaviour.2.2.2 [1, 2, 3]⟩

/-- Claim C5 counterexample: an 11-byte input does not fail with
`InputTooLong` — the bundled `createValidNamespace` produces a 29-byte
namespace (which even validates) equal to the namespace of the input
truncated to its first 10 bytes. -/
theorem createValidNamespace_counterexample :
    (createValidNamespaceV2 [1, 2, 3, 4, 5, 6, 7, 8, 9, 10, 11]).length = 29 ∧
      validateNamespaceV2 (createValidNamespaceV2 [1, 2, 3, 4, 5, 6, 7, 8, 9, 10, 11]) =
        none ∧
      createValidNamespaceV2 [1, 2, 3, 4, 5, 6, 7, 8, 9, 10, 11] =
        createValidNamespaceV2 [1, 2, 3, 4, 5, 6, 7, 8, 9, 10] := by
  decide

/-! ### Claim C6: encrypt/decrypt round trip -/

theorem char_toNat_inj {a b : Char} (h : a.toNat = b.toNat) : a = b := by
  have := congrArg Char.ofNat h
  rwa [Char.ofNat_toNat, Char.ofNat_toNat] at this

theorem strBytes_inj {s1 s2 : String} (h : strBytes s1 = strBytes s2) : s1 = s2 := by
  unfold strBytes at h
  have hl : s1.toList = s2.toList := by
    have hinj : Function.Injective Char.toNat := fun a b => char_toNat_inj
    exact List.map_injective_iff.mpr hinj h
  cases s1
  cases s2
  exact congrArg String.mk (by simpa using hl)

theorem takeWhile_ones_length (m : Nat) (l : List Nat) :
    ((List.replicate m 1 ++ 0 :: l).takeWhile (fun b => b == 1)).length = m := by
  induction m with
  | zero => simp [List.takeWhile_cons]
  | succ m ih =>
    rw [List.replicate_succ, List.cons_append, List.takeWhile_cons]
    simp [ih]

theorem aesGcmOpen_seal_general (k1 k2 : DerivedKey) (msg : List Nat) :
    aesGcmOpenBytes k2 (aesGcmSealBytes k1 msg) =
      if strBytes k1.token = strBytes k2.token then some msg else none := by
  unfold aesGcmOpenBytes aesGcmSealBytes
  dsimp only
  rw [takeWhile_ones_length]
  rw [List.drop_left' (by simp :
    (List.replicate (strBytes k1.token).length (1 : Nat)).length =
      (strBytes k1.token).length)]
  show (if List.take (strBytes k1.token).length (strBytes k1.token ++ msg) =
      strBytes k2.token then
    some (List.drop (strBytes k1.token).length (strBytes k1.token ++ msg)) else none) = _
  rw [List.take_left' rfl, List.drop_left' rfl]

theorem aesGcmOpen_seal (k : DerivedKey) (msg : List Nat) :
    aesGcmOpenBytes k (aesGcmSealBytes k msg) = some msg := by
  rw [aesGcmOpen_seal_general k k msg, if_pos rfl]

theorem aesGcmOpen_seal_ne (k1 k2 : DerivedKey) (msg : List Nat)
    (hne : k1.token ≠ k2.token) :
    aesGcmOpenBytes k2 (aesGcmSealBytes k1 msg) = none := by
  rw [aesGcmOpen_seal_general k1 k2 msg, if_neg]
  intro heq
  exact hne (strBytes_inj heq)

/-- Claim C6 (confirmed): decrypting the output of `encryptData` with the
same token recovers the plaintext — `decryptData` parses the fixed 12-byte
IV prefix back off the `iv ‖ ciphertext` blob — and decrypting it with any
different token fails (authentication failure) rather than returning a
plaintext.  The plaintext is taken in its serialized byte form and AES-GCM
is modelled symbolically as an ideal authenticated cipher. -/
theorem encryptData_decryptData_roundtrip :
    ∀ (msg iv : List Nat) (t1 t2 : String),
      iv.length = 12 → (∀ b ∈ iv, b < 256) → (∀ b ∈ msg, b < 256) →
      (∀ c ∈ t1.toList, c.toNat < 256) →
      (decryptData (encryptData msg t1 iv) t1 = some msg ∧
        (t1 ≠ t2 → decryptData (encryptData msg t1 iv) t2 = none)) := by
  intro msg iv t1 t2 hiv hivb hmsgb ht1
  have hball : ∀ b ∈ iv ++ aesGcmSealBytes (deriveKeyFromToken t1) msg, b < 256 := by
    intro b hb
    rcases List.mem_append.mp hb with h | h
    · exact hivb b h
    · unfold aesGcmSealBytes at h
      rcases List.mem_append.mp h with h1 | h1
      · have := List.eq_of_mem_replicate h1
        omega
      · rcases List.mem_cons.mp h1 with rfl | h2
        · omega
        · rcases List.mem_append.mp h2 with h3 | h3
          · unfold strBytes deriveKeyFromToken at h3
            simp only [List.mem_map] at h3
            obtain ⟨c, hc, rfl⟩ := h3
            exact ht1 c hc
          · exact hmsgb b h3
  have hdec : ∀ t : String,
      decryptData (encryptData msg t1 iv) t =
        aesGcmOpenBytes (deriveKeyFromToken t)
          (aesGcmSealBytes (deriveKeyFromToken t1) msg) := by
    intro t
    unfold decryptData encryptData
    rw [atob_btoa _ hball]
    show aesGcmOpenBytes (deriveKeyFromToken t)
        (List.drop 12 (iv ++ aesGcmSealBytes (deriveKeyFromToken t1) msg)) = _
    rw [List.drop_left' hiv]
  constructor
  · rw [hdec t1, aesGcmOpen_seal]
  · intro hne
    rw [hdec t2]
    exact aesGcmOpen_seal_ne _ _ _ (by simpa [deriveKeyFromToken] using hne)

/-- Claim C6 witness. -/
theorem encryptData_decryptData_witness :
    decryptData (encryptData [104, 105] "a" (List.replicate 12 0)) "a" =
        some [104, 105] ∧
      decryptData (encryptData [104, 105] "a" (List.replicate 12 0)) "b" = none :=
  ⟨(encryptData_decryptData_roundtrip [104, 105] (List.replicate 12 0) "a" "b"
      (by decide) (by decide) (by decide) (by decide)).1,
    (encryptData_decryptData_roundtrip [104, 105] (List.replicate 12 0) "a" "b"
      (by decide) (by decide) (by decide) (by decide)).2 (by decide)⟩

/-! ### Claim C1: partial-failure tolerance of listing -/

theorem retrieveRecordsLoop_eq_filterMap (rl : List RecordInfo)
    (oracle : Nat → Option String) :
    retrieveRecordsLoop rl oracle =
      rl.filterMap (fun ri => (oracle ri.height).map (fun r => (r, ri.height))) := by
  induction rl with
  | nil => rfl
  | cons ri rest ih =>
    simp only [retrieveRecordsLoop, List.filterMap_cons]
    cases h : oracle ri.height <;> simp [h, ih]

/-- Claim C1 (corrected): on an initialized database,
`retrieveDatabaseRecords` never aborts whatever the per-entry fetch/decrypt
failure pattern is — each failing entry is skipped and the successes are
returned in index order — but the aggregate result is only that list of
successes, with no failed-entry count: the spec's claim that the result
distinguishes an empty index from a non-empty index whose entries all
failed does not hold. -/
theorem retrieveDatabaseRecords_partial_failure :
    ∀ (rl : List RecordInfo) (fresh : String) (st : Store)
      (oracle : Nat → Option String),
      jsFalsyStr (getItem DB_NAMESPACE_KEY_V2 st) = false →
      (retrieveDatabaseRecordsV2 rl fresh st oracle).1 =
        .ok (rl.filterMap (fun ri => (oracle ri.height).map (fun r => (r, ri.height)))) := by
  intro rl fresh st oracle hns
  unfold retrieveDatabaseRecordsV2
  rw [hns]
  by_cases hlen : rl.length = 0
  · have hnil : rl = [] := List.eq_nil_of_length_eq_zero hlen
    subst hnil
    simp
  · simp [hlen, retrieveRecordsLoop_eq_filterMap]

/-- Claim C1 witness. -/
theorem retrieveDatabaseRecords_partial_failure_witness :
    (retrieveDatabaseRecordsV2 [⟨5, "t1"⟩, ⟨9, "t2"⟩] "f"
        (setItem DB_NAMESPACE_KEY_V2 "ns" emptyStore)
        (fun h => if h = 9 then some "rec9" else none)).1 =
      .ok (([⟨5, "t1"⟩, ⟨9, "t2"⟩] : List RecordInfo).filterMap
        (fun ri => ((fun h => if h = 9 then some "rec9" else none) ri.height).map
          (fun r => (r, ri.height)))) :=
  retrieveDatabaseRecords_partial_failure [⟨5, "t1"⟩, ⟨9, "t2"⟩] "f"
    (setItem DB_NAMESPACE_KEY_V2 "ns" emptyStore)
    (fun h => if h = 9 then some "rec9" else none) (by decide)

/-- Claim C1 counterexample: with the secret token cleared every decrypt
fails, and listing a non-empty one-entry index yields exactly the same
aggregate result — a bare `ok []` — as listing an empty index, so the
claimed failed-entry count does not exist. -/
theorem retrieveDatabaseRecords_counterexample :
    (retrieveDatabaseRecordsV2 [⟨5, "t"⟩] "f"
        (setItem DB_NAMESPACE_KEY_V2 "ns" emptyStore) (fun _ => none)).1 =
      Except.ok [] ∧
      (retrieveDatabaseRecordsV2 [] "f"
        (setItem DB_NAMESPACE_KEY_V2 "ns" emptyStore) (fun _ => none)).1 =
      Except.ok [] := by
  constructor <;> rfl

/-! ### Claim C7: display-form round trip -/

theorem hexChar_ne_x (u : Bool) (n : Nat) : hexChar u n ≠ 'x' := by
  by_cases h : n < 16
  · revert h
    revert n
    cases u <;> decide
  · cases u
    · show hexDigitsLower.getD n '?' ≠ 'x'
      rw [List.getD_eq_default _ _ (by
        have h16 : hexDigitsLower.length = 16 := by decide
        omega)]
      decide
    · show hexDigitsUpper.getD n '?' ≠ 'x'
      rw [List.getD_eq_default _ _ (by
        have h16 : hexDigitsUpper.length = 16 := by decide
        omega)]
      decide

theorem strip0x_bytesToHexChars (u : Bool) (bs : List Nat) :
    strip0x (bytesToHexChars u bs) = bytesToHexChars u bs := by
  cases bs with
  | nil => rfl
  | cons b rest =>
    show strip0x (hexChar u (b / 16) :: hexChar u (b % 16) :: bytesToHexChars u rest) = _
    unfold strip0x
    split
    · next heq =>
      exfalso
      have := List.cons.inj heq
      have h2 := List.cons.inj this.2
      exact hexChar_ne_x u (b % 16) h2.1
    · rfl

/-- Claim C7 (corrected): the `common.js` pair `base64ToHex`/`hexToBase64`
is lossless on every 29-byte namespace — `hexToBase64(base64ToHex(n))`
returns the original base64 namespace exactly.  (The bundled variant's
`base64ToHex` instead returns only the hex of the last 10 bytes for
29-byte inputs, so its round trip is not the identity; see the
counterexample.) -/
theorem base64ToHex_hexToBase64_roundtrip_v1 :
    ∀ bs : List Nat, bs.length = 29 → (∀ b ∈ bs, b < 256) →
      hexToBase64V1 (base64ToHexV1 (btoa bs)) = btoa bs := by
  intro bs _hlen hb
  unfold base64ToHexV1
  rw [atob_btoa bs hb]
  unfold hexToBase64V1
  rw [show (bytesToHex true bs).toList = bytesToHexChars true bs from rfl]
  rw [strip0x_bytesToHexChars]
  rw [hexPairsToBytes_bytesToHexChars true bs hb]

/-- Claim C7 witness. -/
theorem base64ToHex_hexToBase64_roundtrip_v1_witness :
    hexToBase64V1 (base64ToHexV1
        (btoa (0 :: (List.replicate 18 0 ++ List.replicate 10 97)))) =
      btoa (0 :: (List.replicate 18 0 ++ List.replicate 10 97)) :=
  base64ToHex_hexToBase64_roundtrip_v1
    (0 :: (List.replicate 18 0 ++ List.replicate 10 97)) (by decide) (by decide)

/-- Claim C7 counterexample: a valid 29-byte namespace whose display-form
round trip through the bundled variant is not the identity — its
`base64ToHex` keeps only the last 10 bytes, so `hexToBase64` returns the
base64 of those 10 bytes instead of the original namespace. -/
theorem base64ToHex_hexToBase64_counterexample :
    validateNamespaceV2 (0 :: (List.replicate 18 0 ++ List.replicate 10 97)) = none ∧
      (0 :: (List.replicate 18 0 ++ List.replicate 10 97)).length = 29 ∧
      hexToBase64V2 (base64ToHexV2
          (btoa (0 :: (List.replicate 18 0 ++ List.replicate 10 97)))) ≠
        btoa (0 :: (List.replicate 18 0 ++ List.replicate 10 97)) := by
  decide

/-! ### Claim C3: namespace validation -/

theorem includes_pattern_58 (bs : List Nat) (hb : ∀ x ∈ bs, x < 256)
    (hlen : bs.length = 29) (p : String) (hp : p.toList.length = 58)
    (h : listIncludes (bytesToHexChars false bs) p.toList = true) :
    bs = hexPairsToBytes p.toList := by
  have hhexlen : (bytesToHexChars false bs).length = 58 := by
    rw [bytesToHexChars_length]
    omega
  have heq := (listIncludes_eq_iff (bytesToHexChars false bs) p.toList
    (by rw [hp, hhexlen])).mp h
  have h2 := congrArg hexPairsToBytes heq
  rwa [hexPairsToBytes_bytesToHexChars false bs hb] at h2

theorem isReservedNamespaceV2_iff (bs : List Nat) (hlen : bs.length = 29)
    (hb : ∀ x ∈ bs, x < 256) :
    isReservedNamespaceV2 bs = true ↔
      (bs = txnBytes ∨ bs = isrBytes ∨ bs = pfbBytes) := by
  have hhexlen : (bytesToHexChars false bs).length = 58 := by
    rw [bytesToHexChars_length]
    omega
  have hFnot : ('F' : Char) ∉ bytesToHexChars false bs := by
    intro hmem
    have := mem_hexDigitsLower_of_mem_bytesToHexChars bs hb 'F' hmem
    revert this
    decide
  unfold isReservedNamespaceV2 reservedNamespacesV2
  simp only [List.any_cons, List.any_nil, Bool.or_eq_true, Bool.or_false]
  constructor
  · rintro (h1 | h2 | h3 | h4 | h5 | h6)
    · exact Or.inl ((includes_pattern_58 bs hb hlen _ (by decide) h1).trans (by decide))
    · exact Or.inr (Or.inl
        ((includes_pattern_58 bs hb hlen _ (by decide) h2).trans (by decide)))
    · exact Or.inr (Or.inr
        ((includes_pattern_58 bs hb hlen _ (by decide) h3).trans (by decide)))
    · rw [listIncludes_false_of_not_mem (bytesToHexChars false bs) _ 'F'
        (by decide) hFnot] at h4
      cases h4
    · rw [listIncludes_false_of_longer (bytesToHexChars false bs) _
        (by rw [hhexlen]; decide)] at h5
      cases h5
    · rw [listIncludes_false_of_longer (bytesToHexChars false bs) _
        (by rw [hhexlen]; decide)] at h6
      cases h6
  · rintro (rfl | rfl | rfl) <;> decide

theorem validateNamespaceV2_valid_iff (bs : List Nat) (hb : ∀ x ∈ bs, x < 256) :
    validateNamespaceV2 bs = none ↔
      (bs.length = 29 ∧ (bs.headD 0 = 0 ∨ bs.headD 0 = 255) ∧
        (bs.headD 0 = 0 → ∀ x ∈ (bs.drop 1).take 18, x = 0) ∧
        ¬(bs = txnBytes ∨ bs = isrBytes ∨ bs = pfbBytes)) := by
  unfold validateNamespaceV2
  split_ifs with h1 h2 h3 h4
  · refine iff_of_false (by simp) ?_
    rintro ⟨hl, _, _, _⟩
    exact h1 hl
  · refine iff_of_false (by simp) ?_
    rintro ⟨hl, _, hpad, _⟩
    obtain ⟨hv0, hany⟩ := h2
    obtain ⟨x, hxmem, hxne⟩ := List.any_eq_true.mp hany
    simp only [decide_eq_true_eq] at hxne
    exact hxne (hpad hv0 x hxmem)
  · refine iff_of_false (by simp) ?_
    rintro ⟨hl, hv, _, _⟩
    rcases hv with hv | hv
    · exact h3.1 hv
    · exact h3.2 hv
  · refine iff_of_false (by simp) ?_
    rintro ⟨hl, _, _, hres⟩
    exact hres ((isReservedNamespaceV2_iff bs hl hb).mp h4)
  · refine iff_of_true rfl ⟨by omega, ?_, ?_, ?_⟩
    · by_cases hz : bs.headD 0 = 0
      · exact Or.inl hz
      · right
        by_contra hne
        exact h3 ⟨hz, hne⟩
    · intro hv0 x hxmem
      by_contra hxne
      exact h2 ⟨hv0, List.any_eq_true.mpr ⟨x, hxmem, by simpa using hxne⟩⟩
    · intro habs
      exact h4 ((isReservedNamespaceV2_iff bs (by omega) hb).mpr habs)

theorem isReservedNamespaceV1_iff (bs : List Nat) (hlen : bs.length = 29)
    (hb : ∀ x ∈ bs, x < 256) :
    isReservedNamespaceV1 bs = true ↔
      (bs = txnBytes ∨ bs = isrBytes ∨ bs = pfbBytes ∨ bs = primaryPaddingBytes) := by
  have hhexlen : (bytesToHexChars true bs).length = 58 := by
    rw [bytesToHexChars_length]
    omega
  have hstr : ∀ p : String,
      (bytesToHex true bs = p) ↔ bytesToHexChars true bs = p.toList := by
    intro p
    unfold bytesToHex
    cases p with
    | mk d =>
      constructor
      · intro hh
        exact congrArg String.data hh
      · intro hh
        exact congrArg String.mk hh
  have hback : ∀ p : String, bytesToHexChars true bs = p.toList →
      bs = hexPairsToBytes p.toList := by
    intro p hh
    have h2 := congrArg hexPairsToBytes hh
    rwa [hexPairsToBytes_bytesToHexChars true bs hb] at h2
  unfold isReservedNamespaceV1 reservedNamespacesV1
  simp only [List.any_cons, List.any_nil, Bool.or_eq_true, Bool.or_false, beq_iff_eq]
  rw [hstr, hstr, hstr, hstr, hstr, hstr]
  constructor
  · rintro (h1 | h2 | h3 | h4 | h5 | h6)
    · exact Or.inl ((hback _ h1).trans (by decide))
    · exact Or.inr (Or.inl ((hback _ h2).trans (by decide)))
    · exact Or.inr (Or.inr (Or.inl ((hback _ h3).trans (by decide))))
    · exact Or.inr (Or.inr (Or.inr ((hback _ h4).trans (by decide))))
    · have := congrArg List.length h5
      rw [hhexlen] at this
      exact absurd this (by decide)
    · have := congrArg List.length h6
      rw [hhexlen] at this
      exact absurd this (by decide)
  · rintro (rfl | rfl | rfl | rfl)
    · exact Or.inl (by decide)
    · exact Or.inr (Or.inl (by decide))
    · exact Or.inr (Or.inr (Or.inl (by decide)))
    · exact Or.inr (Or.inr (Or.inr (Or.inl (by decide))))

theorem validateNamespaceV1_valid_iff (bs : List Nat) (hb : ∀ x ∈ bs, x < 256) :
    validateNamespaceV1 bs = none ↔
      (bs.length = 29 ∧ (bs.headD 0 = 0 ∨ bs.headD 0 = 255) ∧
        ¬(bs = txnBytes ∨ bs = isrBytes ∨ bs = pfbBytes ∨ bs = primaryPaddingBytes)) := by
  have hhexlen : (bytesToHexChars true bs).length = 2 * bs.length :=
    bytesToHexChars_length true bs
  have hver : bs.length = 29 →
      hexValD ((bytesToHexChars true bs).getD 0 '0') * 16 +
        hexValD ((bytesToHexChars true bs).getD 1 '0') = bs.headD 0 := by
    intro hlen
    cases bs with
    | nil => simp at hlen
    | cons b rest =>
      have hblt : b < 256 := hb b (by simp)
      rw [show bytesToHexChars true (b :: rest) =
        hexChar true (b / 16) :: hexChar true (b % 16) :: bytesToHexChars true rest
        from rfl]
      simp only [List.getD_cons_zero, List.getD_cons_succ]
      rw [hexValD_hexChar true _ (by omega), hexValD_hexChar true _ (by omega)]
      simp only [List.headD_cons]
      omega
  unfold validateNamespaceV1
  dsimp only
  split_ifs with h1 h2 h3
  · refine iff_of_false (by simp) ?_
    rintro ⟨hl, _, _⟩
    exact h1 (by rw [hhexlen, hl])
  · have hlen29 : bs.length = 29 := by omega
    refine iff_of_false (by simp) ?_
    rintro ⟨hl, hv, _⟩
    rw [hver hlen29] at h2
    rcases hv with hv | hv
    · exact h2.1 hv
    · exact h2.2 hv
  · have hlen29 : bs.length = 29 := by omega
    refine iff_of_false (by simp) ?_
    rintro ⟨hl, _, hres⟩
    exact hres ((isReservedNamespaceV1_iff bs hlen29 hb).mp h3)
  · have hlen29 : bs.length = 29 := by omega
    refine iff_of_true rfl ⟨hlen29, ?_, ?_⟩
    · rw [hver hlen29] at h2
      by_cases hz : bs.headD 0 = 0
      · exact Or.inl hz
      · right
        by_contra hne
        exact h2 ⟨hz, hne⟩
    · intro habs
      exact h3 ((isReservedNamespaceV1_iff bs hlen29 hb).mpr habs)

/-- Claim C3 (corrected): the bundled `validateNamespace` rejects exactly
the namespaces violating the length rule (29 bytes), the version rule
(version 0 or 255), or the version-0 zero-padding rule on bytes 1–18, plus
the three digit-patterned reserved namespaces (transaction,
intermediate-state-root, pay-for-blob) — but it *accepts* the primary
reserved padding namespace, because its reserved check compares lowercase
hex case-sensitively with an uppercase `…FF` pattern.  The `common.js`
variant checks length, version and the reserved set (by exact uppercase hex
equality, catching all four 29-byte reserved patterns) but omits the
version-0 zero-padding rule entirely. -/
theorem validateNamespace_characterization :
    (∀ bs : List Nat, (∀ x ∈ bs, x < 256) →
      (validateNamespaceV2 bs = none ↔
        (bs.length = 29 ∧ (bs.headD 0 = 0 ∨ bs.headD 0 = 255) ∧
          (bs.headD 0 = 0 → ∀ x ∈ (bs.drop 1).take 18, x = 0) ∧
          ¬(bs = txnBytes ∨ bs = isrBytes ∨ bs = pfbBytes)))) ∧
    validateNamespaceV2 primaryPaddingBytes = none ∧
    (∀ bs : List Nat, (∀ x ∈ bs, x < 256) →
      (validateNamespaceV1 bs = none ↔
        (bs.length = 29 ∧ (bs.headD 0 = 0 ∨ bs.headD 0 = 255) ∧
          ¬(bs = txnBytes ∨ bs = isrBytes ∨ bs = pfbBytes ∨
            bs = primaryPaddingBytes)))) :=
  ⟨fun bs hb => validateNamespaceV2_valid_iff bs hb, by decide,
    fun bs hb => validateNamespaceV1_valid_iff bs hb⟩

/-- Claim C3 witness. -/
theorem validateNamespace_characterization_witness :
    validateNamespaceV2 (0 :: List.replicate 28 0) = none ∧
      validateNamespaceV1 (0 :: List.replicate 28 0) = none :=
  ⟨(validateNamespace_characterization.1 (0 :: List.replicate 28 0) (by decide)).mpr
      (by decide),
    (validateNamespace_characterization.2.2 (0 :: List.replicate 28 0) (by decide)).mpr
      (by decide)⟩

/-- Claim C3 counterexample: the bundled `validateNamespace` returns valid
on the primary reserved padding namespace, a reserved pattern the claim
requires it to reject; and the `common.js` `validateNamespace` returns
valid on a version-0 namespace whose byte 1 is non-zero, which the claim
requires it to reject. -/
theorem validateNamespace_counterexample :
    validateNamespaceV2 primaryPaddingBytes = none ∧
      primaryPaddingBytes = List.replicate 28 0 ++ [255] ∧
      validateNamespaceV1 (0 :: 1 :: List.replicate 27 0) = none ∧
      (0 :: 1 :: List.replicate 27 0 : List Nat).length = 29 ∧
      (0 :: 1 :: List.replicate 27 0 : List Nat).headD 0 = 0 ∧
      ¬(∀ x ∈ ((0 :: 1 :: List.replicate 27 0 : List Nat).drop 1).take 18, x = 0) := by
  decide

end CelestiaNodeUI
